import Mathlib

/-!
# Satou64 — shallow embedding and verification of spec claims

This file embeds, in Lean, the parts of the Satou64 Nintendo 64 emulator
(C++ sources under `src/`) that the specification claims talk about, and
proves or refutes each claim against the embedding.

Conventions of the embedding:
* machine integers (`u8`/`u16`/`u32`/`u64` of `include/common/types.hpp`)
  are `Nat` with explicit `% 2^w` where C truncation or wrap-around occurs;
  signed values (`i16`/`i32`/`i64`) are `Int`, converted from the unsigned
  carriers by the `toIxx` helpers below exactly where the C code casts;
* code paths that log `PLOG_FATAL` and call `exit(0)` are modelled as
  `Option.none`;
* the byte order of the little-endian reference host is made explicit:
  a C `memcpy` of an N-byte integer into the backing store is modelled as
  a little-endian byte store (`storeLE`) and the mirror load as `loadLE`.
-/

/-! ## include/common/types.hpp — byteswap

`byteswap<u16>`: `(data >> 8) | (data << 8)`, result truncated to `u16`. -/

def byteswap16 (data : Nat) : Nat :=
  ((data >>> 8) ||| (data <<< 8)) % 2 ^ 16

/-- `byteswap<u32>`:
`(data >> 24) | ((data & 0xFF0000) >> 8) | ((data & 0xFF00) << 8) | (data << 24)`,
all in `u32` arithmetic (the left shift by 24 wraps modulo `2^32`). -/
def byteswap32 (data : Nat) : Nat :=
  (data >>> 24) ||| ((data &&& 0xFF0000) >>> 8) ||| ((data &&& 0xFF00) <<< 8) |||
    ((data <<< 24) % 2 ^ 32)

/-- `byteswap<u64>`: the eight-byte reversal of `types.hpp`, in `u64`
arithmetic (the left shift by 56 wraps modulo `2^64`). -/
def byteswap64 (data : Nat) : Nat :=
  (data >>> 56) ||| ((data &&& 0xFF000000000000) >>> 40) |||
    ((data &&& 0xFF0000000000) >>> 24) ||| ((data &&& 0xFF00000000) >>> 8) |||
    ((data &&& 0xFF000000) <<< 8) ||| ((data &&& 0xFF0000) <<< 24) |||
    ((data &&& 0xFF00) <<< 40) ||| ((data <<< 56) % 2 ^ 64)

/-! ## sys/memory.cpp — the page-backed bus

`init` populates the software-fastmem page table (`PAGE_SHIFT = 12`) with
the four contiguous backing arrays: RDRAM (`MemoryBase::RDRAM = 0`,
`MemorySize::RDRAM = 0x800000`), RSP DMEM (`0x4000000`, one page), RSP
IMEM (`0x4001000`, one page) and the cartridge image
(`MemoryBase::CART_DOM1_A2 = 0x10000000`, `rom.size()` bytes; `map`
rounds the size down to whole pages).  Distinct backed physical addresses
reach distinct backing bytes, so we model the backing bytes as one
function from physical address to byte, and the ROM mapping by its page
count `romPages`.  Accesses whose page is unmapped take the PIF /
I/O-dispatch / fatal paths of the source, which touch device state rather
than RAM; the claims do not exercise them and they are modelled as
`none`. -/

def Ram : Type := Nat → Nat

/-- `MemorySize::RDRAM` -/
def RDRAM_SIZE : Nat := 0x800000

/-- `isValidPhysicalAddress`: `paddr < MemorySize::AddressSpace`
(`0x80000000`); an invalid address is fatal in every access path. -/
def isValidPhysicalAddress (paddr : Nat) : Bool :=
  decide (paddr < 0x80000000)

/-- `pageTable[addressToPage(paddr)] != NULL` after `init`: the `map`
calls back RDRAM (pages `0x000`–`0x7FF`), RSP DMEM (page `0x4000`), RSP
IMEM (page `0x4001`) and the cartridge image (pages `0x10000` up,
`romPages = rom.size() >> PAGE_SHIFT` of them).  PIF ROM/RAM and the
memory-mapped I/O windows are not in the page table. -/
def isPageBacked (romPages paddr : Nat) : Bool :=
  decide (paddr >>> 12 < 0x800) || decide (paddr >>> 12 = 0x4000) ||
    decide (paddr >>> 12 = 0x4001) ||
    (decide (0x10000 ≤ paddr >>> 12) && decide (paddr >>> 12 < 0x10000 + romPages))

/-- Store one byte into the backing store. -/
def storeByte (m : Ram) (a v : Nat) : Ram :=
  fun x => if x = a then v % 256 else m x

/-- `memcpy` of the low `n` bytes of `v` to address `a`, little-endian as on
the reference host. -/
def storeLE (m : Ram) (a : Nat) : Nat → Nat → Ram
  | 0, _ => m
  | n + 1, v => storeLE (storeByte m a v) (a + 1) n (v >>> 8)

/-- `memcpy` of `n` bytes at address `a` back into an integer, little-endian
as on the reference host. -/
def loadLE (m : Ram) (a : Nat) : Nat → Nat
  | 0 => 0
  | n + 1 => m a % 256 + 256 * loadLE m (a + 1) n

/-- `sys::memory::read<u8>`: validity check, then the page-backed path.
The PIF-ROM fallback and the fatal default are not RAM (`none`). -/
def memRead8 (romPages : Nat) (m : Ram) (paddr : Nat) : Option Nat :=
  if isValidPhysicalAddress paddr && isPageBacked romPages paddr then
    some (m paddr % 256)
  else none

/-- `sys::memory::read<u16>`: validity check, then the page-backed path
(`memcpy` then `byteswap`); PIF-ROM fallback / fatal default `none`. -/
def memRead16 (romPages : Nat) (m : Ram) (paddr : Nat) : Option Nat :=
  if isValidPhysicalAddress paddr && isPageBacked romPages paddr then
    some (byteswap16 (loadLE m paddr 2))
  else none

/-- `sys::memory::read<u32>`: validity check, then the page-backed path;
the PIF-RAM and I/O-dispatch fallbacks are device state (`none`). -/
def memRead32 (romPages : Nat) (m : Ram) (paddr : Nat) : Option Nat :=
  if isValidPhysicalAddress paddr && isPageBacked romPages paddr then
    some (byteswap32 (loadLE m paddr 4))
  else none

/-- `sys::memory::read<u64>`: validity check, then the page-backed path;
PIF-ROM fallback / fatal default `none`. -/
def memRead64 (romPages : Nat) (m : Ram) (paddr : Nat) : Option Nat :=
  if isValidPhysicalAddress paddr && isPageBacked romPages paddr then
    some (byteswap64 (loadLE m paddr 8))
  else none

/-- `sys::memory::write<u8>`: validity check, then the page-backed path
(no swap); the fatal default is `none`. -/
def memWrite8 (romPages : Nat) (m : Ram) (paddr data : Nat) : Option Ram :=
  if isValidPhysicalAddress paddr && isPageBacked romPages paddr then
    some (storeByte m paddr data)
  else none

/-- `sys::memory::write<u16>`: validity check, then the page-backed path
(`byteswap` then `memcpy`); the fatal default is `none`. -/
def memWrite16 (romPages : Nat) (m : Ram) (paddr data : Nat) : Option Ram :=
  if isValidPhysicalAddress paddr && isPageBacked romPages paddr then
    some (storeLE m paddr 2 (byteswap16 (data % 2 ^ 16)))
  else none

/-- `sys::memory::write<u32>`: validity check, then the page-backed path;
the PIF-RAM and I/O-dispatch fallbacks are device state (`none`). -/
def memWrite32 (romPages : Nat) (m : Ram) (paddr data : Nat) : Option Ram :=
  if isValidPhysicalAddress paddr && isPageBacked romPages paddr then
    some (storeLE m paddr 4 (byteswap32 (data % 2 ^ 32)))
  else none

/-- `sys::memory::write<u64>`: validity check, then the page-backed path;
the fatal default is `none`. -/
def memWrite64 (romPages : Nat) (m : Ram) (paddr data : Nat) : Option Ram :=
  if isValidPhysicalAddress paddr && isPageBacked romPages paddr then
    some (storeLE m paddr 8 (byteswap64 (data % 2 ^ 64)))
  else none

/-! ### Byte-store lemmas -/

theorem storeLE_apply_lt {m : Ram} {a n v x : Nat} (h : x < a) :
    storeLE m a n v x = m x := by
  induction n generalizing m a v with
  | zero => rfl
  | succ k ih =>
    rw [storeLE, ih (by omega), storeByte]
    simp only [if_neg (by omega : ¬x = a)]

theorem storeLE_apply_ge {m : Ram} {a n v x : Nat} (h : a + n ≤ x) :
    storeLE m a n v x = m x := by
  induction n generalizing m a v with
  | zero => rfl
  | succ k ih =>
    rw [storeLE, ih (by omega), storeByte]
    simp only [if_neg (by omega : ¬x = a)]

theorem loadLE_storeLE (m : Ram) (a n v : Nat) :
    loadLE (storeLE m a n v) a n = v % 2 ^ (8 * n) := by
  induction n generalizing m a v with
  | zero => simp [loadLE, Nat.mod_one]
  | succ k ih =>
    rw [loadLE, storeLE]
    have hhead : storeLE (storeByte m a v) (a + 1) k (v >>> 8) a =
        v % 256 := by
      rw [storeLE_apply_lt (by omega), storeByte]
      simp
    rw [hhead, ih, Nat.shiftRight_eq_div_pow]
    have : (2 : Nat) ^ (8 * (k + 1)) = 256 * 2 ^ (8 * k) := by
      rw [show 8 * (k + 1) = 8 + 8 * k by ring, pow_add]
      norm_num
    rw [this, Nat.mod_mul]
    norm_num

/-! ### `byteswap` is an involution on values of its width -/

theorem byteswap16_lt (v : Nat) : byteswap16 v < 2 ^ 16 :=
  Nat.mod_lt _ (by norm_num)

theorem byteswap16_byteswap16 {v : Nat} (h : v < 2 ^ 16) :
    byteswap16 (byteswap16 v) = v := by
  have hv : ∀ k, 16 ≤ k → v.testBit k = false := fun k hk =>
    Nat.testBit_lt_two_pow (lt_of_lt_of_le h (Nat.pow_le_pow_right (by norm_num) hk))
  apply Nat.eq_of_testBit_eq
  intro j
  rcases Nat.lt_or_ge j 16 with hj | hj
  · interval_cases j <;>
      (simp only [byteswap16, Nat.testBit_mod_two_pow, Nat.testBit_or,
        Nat.testBit_shiftLeft, Nat.testBit_shiftRight];
       simp +decide [hv])
  · rw [Nat.testBit_lt_two_pow (lt_of_lt_of_le (byteswap16_lt _)
        (Nat.pow_le_pow_right (by norm_num) hj)), hv j hj]

theorem byteswap32_lt {v : Nat} (h : v < 2 ^ 32) : byteswap32 v < 2 ^ 32 := by
  have hsr : ∀ x k : Nat, x >>> k ≤ x := by
    intro x k
    rw [Nat.shiftRight_eq_div_pow]
    exact Nat.div_le_self _ _
  have h1 : v >>> 24 < 2 ^ 32 := lt_of_le_of_lt (hsr _ _) h
  have h2 : (v &&& 0xFF0000) >>> 8 < 2 ^ 32 :=
    lt_of_le_of_lt (hsr _ _) (lt_of_le_of_lt (Nat.and_le_left) h)
  have h3 : (v &&& 0xFF00) <<< 8 < 2 ^ 32 := by
    have : v &&& 0xFF00 ≤ 0xFF00 := Nat.and_le_right
    calc (v &&& 0xFF00) <<< 8 = (v &&& 0xFF00) * 2 ^ 8 := by
          rw [Nat.shiftLeft_eq]
      _ < 2 ^ 32 := by omega
  have h4 : (v <<< 24) % 2 ^ 32 < 2 ^ 32 := Nat.mod_lt _ (by norm_num)
  unfold byteswap32
  have := Nat.or_lt_two_pow (x := v >>> 24 ||| (v &&& 0xFF0000) >>> 8 ||| (v &&& 0xFF00) <<< 8)
    (y := (v <<< 24) % 2 ^ 32) (n := 32)
  apply this _ h4
  apply Nat.or_lt_two_pow _ h3
  exact Nat.or_lt_two_pow h1 h2

theorem byteswap32_byteswap32 {v : Nat} (h : v < 2 ^ 32) :
    byteswap32 (byteswap32 v) = v := by
  conv_lhs => rw [show v = v % 2 ^ 32 from (Nat.mod_eq_of_lt h).symm]
  apply Nat.eq_of_testBit_eq
  intro j
  rcases Nat.lt_or_ge j 32 with hj | hj
  · interval_cases j <;>
      (simp only [byteswap32, Nat.testBit_mod_two_pow, Nat.testBit_or,
        Nat.testBit_and, Nat.testBit_shiftLeft, Nat.testBit_shiftRight];
       simp +decide [Nat.testBit_to_div_mod])
  · rw [Nat.testBit_lt_two_pow
        (lt_of_lt_of_le (byteswap32_lt (byteswap32_lt (Nat.mod_lt v (by norm_num))))
          (Nat.pow_le_pow_right (by norm_num) hj)),
      Nat.testBit_lt_two_pow
        (lt_of_lt_of_le h (Nat.pow_le_pow_right (by norm_num) hj))]

theorem byteswap64_lt {v : Nat} (h : v < 2 ^ 64) : byteswap64 v < 2 ^ 64 := by
  have hsr : ∀ x k : Nat, x >>> k ≤ x := by
    intro x k
    rw [Nat.shiftRight_eq_div_pow]
    exact Nat.div_le_self _ _
  have hmask : ∀ mask s : Nat, mask * 2 ^ s < 2 ^ 64 → (v &&& mask) <<< s < 2 ^ 64 := by
    intro mask s hm
    have : v &&& mask ≤ mask := Nat.and_le_right
    rw [Nat.shiftLeft_eq]
    calc (v &&& mask) * 2 ^ s ≤ mask * 2 ^ s := Nat.mul_le_mul_right _ this
      _ < 2 ^ 64 := hm
  unfold byteswap64
  apply Nat.or_lt_two_pow _ (Nat.mod_lt _ (by norm_num))
  apply Nat.or_lt_two_pow _ (hmask 0xFF00 40 (by norm_num))
  apply Nat.or_lt_two_pow _ (hmask 0xFF0000 24 (by norm_num))
  apply Nat.or_lt_two_pow _ (hmask 0xFF000000 8 (by norm_num))
  apply Nat.or_lt_two_pow _ (lt_of_le_of_lt (hsr _ _) (lt_of_le_of_lt Nat.and_le_left h))
  apply Nat.or_lt_two_pow _ (lt_of_le_of_lt (hsr _ _) (lt_of_le_of_lt Nat.and_le_left h))
  apply Nat.or_lt_two_pow _ (lt_of_le_of_lt (hsr _ _) (lt_of_le_of_lt Nat.and_le_left h))
  exact lt_of_le_of_lt (hsr _ _) h

set_option maxHeartbeats 3200000 in
theorem byteswap64_byteswap64 {v : Nat} (h : v < 2 ^ 64) :
    byteswap64 (byteswap64 v) = v := by
  conv_lhs => rw [show v = v % 2 ^ 64 from (Nat.mod_eq_of_lt h).symm]
  apply Nat.eq_of_testBit_eq
  intro j
  rcases Nat.lt_or_ge j 64 with hj | hj
  · interval_cases j <;>
      (simp only [byteswap64, Nat.testBit_mod_two_pow, Nat.testBit_or,
        Nat.testBit_and, Nat.testBit_shiftLeft, Nat.testBit_shiftRight];
       simp +decide [Nat.testBit_to_div_mod])
  · rw [Nat.testBit_lt_two_pow
        (lt_of_lt_of_le (byteswap64_lt (byteswap64_lt (Nat.mod_lt v (by norm_num))))
          (Nat.pow_le_pow_right (by norm_num) hj)),
      Nat.testBit_lt_two_pow
        (lt_of_lt_of_le h (Nat.pow_le_pow_right (by norm_num) hj))]

/-! ## Claim C6 — bus write-then-read round trip -/

/--
C6: for every ROM mapping and every address `a` lying in a page-backed
region (RDRAM, RSP DMEM, RSP IMEM or the cartridge image), aligned to
size `s ∈ {1, 2, 4, 8}`, and every value `v` of size `s`, a bus write of
`v` at `a` followed by a bus read of size `s` at `a` returns exactly `v`
(the round trip through the big-endian byte swap is the identity).  An
aligned access never crosses a page boundary, so the starting page's
backing covers the whole access.
-/
theorem c6_bus_write_read_roundtrip (romPages : Nat) (m : Ram) (a v : Nat)
    (hvalid : isValidPhysicalAddress a = true)
    (hback : isPageBacked romPages a = true) :
    (v < 2 ^ 8 →
      (memWrite8 romPages m a v).bind (fun m2 => memRead8 romPages m2 a) = some v) ∧
    (a % 2 = 0 → v < 2 ^ 16 →
      (memWrite16 romPages m a v).bind (fun m2 => memRead16 romPages m2 a) = some v) ∧
    (a % 4 = 0 → v < 2 ^ 32 →
      (memWrite32 romPages m a v).bind (fun m2 => memRead32 romPages m2 a) = some v) ∧
    (a % 8 = 0 → v < 2 ^ 64 →
      (memWrite64 romPages m a v).bind (fun m2 => memRead64 romPages m2 a) = some v) := by
  have hg : (isValidPhysicalAddress a && isPageBacked romPages a) = true := by
    rw [hvalid, hback]; rfl
  refine ⟨fun hv => ?_, fun _ hv => ?_, fun _ hv => ?_, fun _ hv => ?_⟩
  · rw [memWrite8, if_pos hg, Option.some_bind, memRead8, if_pos hg, storeByte]
    simp [Nat.mod_mod_of_dvd, Nat.mod_eq_of_lt hv, Nat.mod_eq_of_lt (show v < 256 from hv)]
  · rw [memWrite16, if_pos hg, Option.some_bind, memRead16, if_pos hg, loadLE_storeLE,
      Nat.mod_eq_of_lt (lt_of_lt_of_le (byteswap16_lt _) (by norm_num)),
      Nat.mod_eq_of_lt hv, byteswap16_byteswap16 hv]
  · rw [memWrite32, if_pos hg, Option.some_bind, memRead32, if_pos hg, loadLE_storeLE,
      Nat.mod_eq_of_lt (lt_of_lt_of_le (byteswap32_lt (Nat.mod_lt v (by norm_num))) (by norm_num)),
      Nat.mod_eq_of_lt hv, byteswap32_byteswap32 hv]
  · rw [memWrite64, if_pos hg, Option.some_bind, memRead64, if_pos hg, loadLE_storeLE,
      Nat.mod_eq_of_lt (lt_of_lt_of_le (byteswap64_lt (Nat.mod_lt v (by norm_num))) (by norm_num)),
      Nat.mod_eq_of_lt hv, byteswap64_byteswap64 hv]

/-- Witness for C6 at a concrete state and value of each size, one access
per backed region: RSP DMEM (u8), RSP IMEM (u16), the cartridge image
(u32, with two ROM pages mapped) and RDRAM (u64). -/
theorem c6_bus_write_read_roundtrip_witness :
    ((memWrite8 2 (fun _ => 0) 0x4000000 0x5A).bind
      (fun m2 => memRead8 2 m2 0x4000000) = some 0x5A) ∧
    ((memWrite16 2 (fun _ => 0) 0x4001008 0xBEEF).bind
      (fun m2 => memRead16 2 m2 0x4001008) = some 0xBEEF) ∧
    ((memWrite32 2 (fun _ => 0) 0x10000000 0x12345678).bind
      (fun m2 => memRead32 2 m2 0x10000000) = some 0x12345678) ∧
    ((memWrite64 2 (fun _ => 0) 8 0x0123456789ABCDEF).bind
      (fun m2 => memRead64 2 m2 8) = some 0x0123456789ABCDEF) :=
  ⟨(c6_bus_write_read_roundtrip 2 (fun _ => 0) 0x4000000 0x5A (by decide)
      (by decide)).1 (by norm_num),
   (c6_bus_write_read_roundtrip 2 (fun _ => 0) 0x4001008 0xBEEF (by decide)
      (by decide)).2.1 (by norm_num) (by norm_num),
   (c6_bus_write_read_roundtrip 2 (fun _ => 0) 0x10000000 0x12345678 (by decide)
      (by decide)).2.2.1 (by norm_num) (by norm_num),
   (c6_bus_write_read_roundtrip 2 (fun _ => 0) 8 0x0123456789ABCDEF (by decide)
      (by decide)).2.2.2 (by norm_num) (by norm_num)⟩

/-! ## Claim C3 — hw::cpu::translateAddress (src/hw/cpu/cpu.cpp) -/

/-- `hw::cpu::translateAddress`: the 64-bit virtual address is first
truncated to `u32` (`const u32 vaddrMasked = vaddr`); accesses whose
truncation lies outside `[KSEG0, KSSEG) = [0x8000'0000, 0xC000'0000)` hit
the "Unimplemented access to TLB mapped region" fatal path; otherwise the
physical address is `vaddr & (AddressRangeSize::KSEG0 - 1)`
with `AddressRangeSize::KSEG0 = 0x2000'0000`. -/
def translateAddress (vaddr : Nat) : Option Nat :=
  let vaddrMasked := vaddr % 2 ^ 32
  if vaddrMasked < 0x80000000 ∨ vaddrMasked ≥ 0xC0000000 then none
  else some (vaddr &&& (0x20000000 - 1))

/-- The translation claimed by the spec sentence: "identity after stripping
the top nibble of the 32-bit address" (so it would map 0xBFC0'0000 to
0x0FC0'0000). Stated for comparison with `translateAddress`. -/
def translateAddressSpecTopNibble (vaddr : Nat) : Nat :=
  (vaddr % 2 ^ 32) &&& 0x0FFFFFFF

/-- C3 counterexample: the code does not strip the top nibble; it keeps
bit 28 of the third-top bit group.  `translateAddress 0xBFC00000` is
`some 0x1FC00000`, not `some 0x0FC00000` as the claim's own example says. -/
theorem c3_translate_counterexample :
    translateAddress 0xBFC00000 = some 0x1FC00000 ∧
    translateAddressSpecTopNibble 0xBFC00000 = 0x0FC00000 ∧
    translateAddress 0xBFC00000 ≠ some (translateAddressSpecTopNibble 0xBFC00000) := by
  refine ⟨by decide, by decide, by decide⟩

/--
C3 (amended): for every virtual address whose 32-bit truncation lies in
the window 0x8000'0000–0xBFFF'FFFF, the translation equals the identity
after stripping the top THREE BITS of the 32-bit address (`vaddr mod 2^29`;
e.g. 0xBFC0'0000 translates to 0x1FC0'0000), and every access outside that
window takes the unimplemented-TLB fatal path.
-/
theorem c3_translate_amended (vaddr : Nat) :
    (0x80000000 ≤ vaddr % 2 ^ 32 → vaddr % 2 ^ 32 < 0xC0000000 →
      translateAddress vaddr = some (vaddr % 2 ^ 29)) ∧
    (vaddr % 2 ^ 32 < 0x80000000 ∨ 0xC0000000 ≤ vaddr % 2 ^ 32 →
      translateAddress vaddr = none) ∧
    translateAddress 0xBFC00000 = some 0x1FC00000 := by
  refine ⟨fun h1 h2 => ?_, fun h => ?_, by decide⟩
  · rw [translateAddress]
    simp only [if_neg (by omega : ¬(vaddr % 2 ^ 32 < 0x80000000 ∨ vaddr % 2 ^ 32 ≥ 0xC0000000))]
    rw [show (0x20000000 - 1 : Nat) = 2 ^ 29 - 1 by norm_num,
      Nat.and_pow_two_sub_one_eq_mod]
  · rw [translateAddress]
    simp only [if_pos (by omega : vaddr % 2 ^ 32 < 0x80000000 ∨ vaddr % 2 ^ 32 ≥ 0xC0000000)]

/-- Witness for C3 (amended) at concrete addresses on both sides of the
window. -/
theorem c3_translate_amended_witness :
    translateAddress 0xA0000123 = some (0xA0000123 % 2 ^ 29) ∧
    translateAddress 0x00000123 = none :=
  ⟨(c3_translate_amended 0xA0000123).1 (by norm_num) (by norm_num),
   (c3_translate_amended 0x00000123).2.1 (Or.inl (by norm_num))⟩

/-! ## sys/scheduler.cpp — the event scheduler -/

/-- A scheduler event (`struct Event` in `sys/scheduler.cpp`): registered
callback id, callback parameter, absolute timestamp.  The priority queue
(`std::priority_queue` with `std::greater`) pops a minimal-timestamp
event first. -/
structure SchedEvent where
  id : Nat
  param : Int
  timestamp : Int
deriving DecidableEq

/-- Scheduler state: `globalTimestamp` and the event queue. -/
structure SchedState where
  globalTimestamp : Int
  events : List SchedEvent

/-- `sys::scheduler::addEvent(id, param, cyclesUntilEvent)`:
asserts `cyclesUntilEvent > 0` and queues the event at
`globalTimestamp + cyclesUntilEvent`. -/
def addEvent (id : Nat) (param : Int) (cyclesUntilEvent : Int) (st : SchedState) :
    Option SchedState :=
  if 0 < cyclesUntilEvent then
    some { st with
      events := ⟨id, param, st.globalTimestamp + cyclesUntilEvent⟩ :: st.events }
  else none

/-- The C cast chain `(u64)(i16)x`: sign-extend the low 16 bits to the
64-bit unsigned carrier. -/
def sext16to64 (x : Nat) : Nat :=
  if x % 2 ^ 16 < 2 ^ 15 then x % 2 ^ 16 else x % 2 ^ 16 + (2 ^ 64 - 2 ^ 16)

/-- The C cast chain `(u64)(i32)x`. -/
def sext32to64 (x : Nat) : Nat :=
  if x % 2 ^ 32 < 2 ^ 31 then x % 2 ^ 32 else x % 2 ^ 32 + (2 ^ 64 - 2 ^ 32)

/-- The C cast `(i32)x` of an unsigned carrier. -/
def toI32 (x : Nat) : Int :=
  if x % 2 ^ 32 < 2 ^ 31 then (x % 2 ^ 32 : Int) else (x % 2 ^ 32 : Int) - 2 ^ 32

/-- The C cast `(i64)x` of an unsigned carrier. -/
def toI64 (x : Nat) : Int :=
  if x % 2 ^ 64 < 2 ^ 63 then (x % 2 ^ 64 : Int) else (x % 2 ^ 64 : Int) - 2 ^ 64

/-- The C cast `(u32)i` of a signed value (two's complement). -/
def u32ofInt (i : Int) : Nat := (i % 2 ^ 32).toNat

/-- The C cast `(u64)i` of a signed value (two's complement). -/
def u64ofInt (i : Int) : Nat := (i % 2 ^ 64).toNat

/-- System-control coprocessor registers (`struct Registers`, cop0.cpp);
`status` and `cause` are kept as their raw 32-bit words, with the bitfield
slices of the `Status`/`Cause` unions exposed as accessor functions. -/
structure Cop0Regs where
  count : Nat
  compare : Nat
  status : Nat
  cause : Nat
  epc : Nat
  config : Nat

/-- `Status.interruptEnable` (bit 0). -/
def statusIE (s : Nat) : Nat := s % 2

/-- `Status.exceptionLevel` (bit 1). -/
def statusEXL (s : Nat) : Nat := s / 2 % 2

/-- `Status.errorLevel` (bit 2). -/
def statusERL (s : Nat) : Nat := s / 2 ^ 2 % 2

/-- `Status.interruptMask` (bits 8–15). -/
def statusIM (s : Nat) : Nat := s / 2 ^ 8 % 2 ^ 8

/-- `Status.bootExceptionVectors` (bit 22). -/
def statusBEV (s : Nat) : Nat := s / 2 ^ 22 % 2

/-- `Cause.interruptPending` (bits 8–15). -/
def causeIP (c : Nat) : Nat := c / 2 ^ 8 % 2 ^ 8

/-- `cop0::setExceptionCode`: store into `Cause.exceptionCode`
(bits 2–6). -/
def causeSetExceptionCode (c code : Nat) : Nat :=
  (c &&& ((2 ^ 32 - 1) ^^^ 0x7C)) ||| ((code % 2 ^ 5) <<< 2)

/-- `regs.cause.interruptPending |= 1 << n` (`cop0::setInterruptPending`;
callers pass interrupt numbers below 8). -/
def causeSetIP (c n : Nat) : Nat := c ||| (1 <<< (8 + n))

/-- `regs.cause.interruptPending &= ~(1 << n)`
(`cop0::clearInterruptPending`). -/
def causeClearIP (c n : Nat) : Nat := c &&& ((2 ^ 32 - 1) ^^^ (1 <<< (8 + n)))

/-- `cop0::setBranchDelay`: `Cause.branchDelay` is bit 31. -/
def causeSetBD (c : Nat) : Nat := c ||| 2 ^ 31

/-- `cop0::reset`: zero all registers, then `mode = Kernel` (0),
`bootExceptionVectors = 1`, `config = CONFIG_DEFAULT`. -/
def cop0Reset : Cop0Regs :=
  { count := 0, compare := 0, status := 2 ^ 22, cause := 0, epc := 0,
    config := 0x6E460 }

/-- Register indices (`Register` enum, cpu.cpp): `RA = 31`, `LO = 32`,
`HI = 33`. -/
def REG_RA : Nat := 31

def REG_LO : Nat := 32

def REG_HI : Nat := 33

/-- Scalar CPU state: the 34-entry register file, the three program
counters (`pc`, `npc`, `cpc`), the two-slot delay queue `inDelaySlot`,
and the system-control coprocessor registers. -/
structure CpuState where
  regs : Nat → Nat
  pc : Nat
  npc : Nat
  cpc : Nat
  delay0 : Bool
  delay1 : Bool
  cop0 : Cop0Regs

/-- Pointwise function update (a register-file store). -/
def updFn (f : Nat → Nat) (i v : Nat) : Nat → Nat := fun j => if j = i then v else f j

/-- `hw::cpu::set<u64>`: write the register, then re-assert that register 0
is hardwired to zero. -/
def cpuSet64 (s : CpuState) (idx data : Nat) : CpuState :=
  { s with regs := updFn (updFn s.regs idx (data % 2 ^ 64)) 0 0 }

/-- `hw::cpu::set<u32>`: the 32-bit write-back sign-extends
(`regs[idx] = (i32)data`). -/
def cpuSet32 (s : CpuState) (idx data : Nat) : CpuState :=
  cpuSet64 s idx (sext32to64 data)

/-- `hw::cpu::setPC<false>`: set `pc`, `npc = pc + 4`, clear the delay
queue. -/
def cpuSetPC (s : CpuState) (addr : Nat) : CpuState :=
  { s with
    pc := addr % 2 ^ 64, npc := (addr + 4) % 2 ^ 64,
    delay0 := false, delay1 := false }

/-- `hw::cpu::setPC<true>`: a branch writes only `npc`. -/
def cpuSetBranchPC (s : CpuState) (addr : Nat) : CpuState :=
  { s with npc := addr % 2 ^ 64 }

/-- `hw::cpu::raiseException(code)` (cpu.cpp): set `Cause.exceptionCode`;
when `Status.BEV` is set the path logs "Unimplemented boot exception
vectors" and exits (fatal, `none`); otherwise, when not already at
exception level, latch EPC (current PC, or current PC − 4 with `Cause.BD`
for a delay slot), set `Status.EXL`, and jump to the general vector
0xFFFF'FFFF'8000'0180. -/
def raiseException (exceptionCode : Nat) (s : CpuState) : Option CpuState :=
  let s1 := { s with cop0 :=
    { s.cop0 with cause := causeSetExceptionCode s.cop0.cause exceptionCode } }
  if statusBEV s1.cop0.status ≠ 0 then none
  else
    let s2 :=
      if statusEXL s1.cop0.status = 0 then
        if s1.delay0 then
          { s1 with cop0 := { s1.cop0 with
              epc := (s1.cpc + 2 ^ 64 - 4) % 2 ^ 64,
              cause := causeSetBD s1.cop0.cause } }
        else
          { s1 with cop0 := { s1.cop0 with epc := s1.cpc % 2 ^ 64 } }
      else s1
    let s3 := { s2 with cop0 := { s2.cop0 with status := s2.cop0.status ||| 2 } }
    some (cpuSetPC s3 0xFFFFFFFF80000180)

/-- `cop0::checkInterruptPending`: with interrupts enabled, an unmasked
pending bit, and neither EXL nor ERL set, enter the interrupt exception
(`ExceptionCode::Interrupt = 0`). -/
def checkInterruptPending (s : CpuState) : Option CpuState :=
  if statusIE s.cop0.status ≠ 0 ∧
      (causeIP s.cop0.cause &&& statusIM s.cop0.status) ≠ 0 ∧
      statusEXL s.cop0.status = 0 ∧ statusERL s.cop0.status = 0 then
    raiseException 0 s
  else some s

/-- `cop0::setInterruptPending(n)`: set the pending bit, then re-check. -/
def setInterruptPending (n : Nat) (s : CpuState) : Option CpuState :=
  checkInterruptPending
    { s with cop0 := { s.cop0 with cause := causeSetIP s.cop0.cause n } }

/-- `cop0::clearInterruptPending(n)`. -/
def clearInterruptPending (n : Nat) (s : CpuState) : CpuState :=
  { s with cop0 := { s.cop0 with cause := causeClearIP s.cop0.cause n } }

/-- `cop0::set<u32>(idx, data)`: `Count = 9` stores `data << 1`;
`Compare = 11` stores and clears pending bit 7 (`InterruptNumber::Compare`);
`Status = 12` stores the raw word and re-checks pending interrupts;
`EPC = 14` sign-extends; `Config = 16` merges through the write mask;
the registers the source only logs are identity; unknown indices are
fatal. -/
def cop0Set32 (idx data : Nat) (s : CpuState) : Option CpuState :=
  match idx with
  | 0 | 2 | 3 | 5 | 10 | 13 | 18 | 19 | 28 | 29 => some s
  | 9 => some { s with cop0 :=
      { s.cop0 with count := ((data % 2 ^ 32) <<< 1) % 2 ^ 32 } }
  | 11 => some (clearInterruptPending 7
      { s with cop0 := { s.cop0 with compare := data % 2 ^ 32 } })
  | 12 => checkInterruptPending
      { s with cop0 := { s.cop0 with status := data % 2 ^ 32 } }
  | 14 => some { s with cop0 := { s.cop0 with epc := sext32to64 data } }
  | 16 => some { s with cop0 := { s.cop0 with config :=
      ((data % 2 ^ 32) &&& 0xF00800F) |||
        (s.cop0.config &&& ((2 ^ 32 - 1) ^^^ 0xF00800F)) } }
  | _ => none

/-- `cop0::incrementCount`: `regs.count++`; when `count >> 1 == compare`,
raise interrupt-pending bit 7 (`InterruptNumber::Compare`); then mask
`count` to 33 bits. -/
def incrementCount (s : CpuState) : Option CpuState :=
  let s1 := { s with cop0 := { s.cop0 with count := (s.cop0.count + 1) % 2 ^ 64 } }
  let step : Option CpuState :=
    if s1.cop0.count >>> 1 = s1.cop0.compare then setInterruptPending 7 s1
    else some s1
  step.map fun s2 => { s2 with cop0 :=
    { s2.cop0 with count := s2.cop0.count &&& 0x1FFFFFFFF } }

/-- `ADDR_RESET_VECTOR` (cpu.cpp). -/
def ADDR_RESET_VECTOR : Nat := 0xBFC00000

/-- `hw::cpu::reset`: reset COP0, clear the register file, seed the PC at
the reset vector, clear the delay queue. -/
def cpuReset : CpuState :=
  cpuSetPC
    { regs := fun _ => 0
      pc := 0
      npc := 0
      cpc := 0
      delay0 := false
      delay1 := false
      cop0 := cop0Reset }
    ADDR_RESET_VECTOR

/-- `hw::cpu::branch(target, condition, linkReg, isLikely)`: fatal inside
a delay slot; stores the return address (`npc`) into the chosen link
register BEFORE looking at the condition; marks the delay slot; commits
the branch target when taken, or skips the delay slot for an untaken
likely branch. -/
def cpuBranch (s : CpuState) (target : Nat) (condition : Bool) (linkReg : Nat)
    (isLikely : Bool) : Option CpuState :=
  if s.delay0 then none
  else
    let s1 := cpuSet64 s linkReg s.npc
    let s2 := { s1 with delay1 := true }
    if condition then some (cpuSetBranchPC s2 target)
    else if isLikely then some (cpuSetPC s2 s2.npc)
    else some s2

/-- Instruction bitfields (`union Instruction`, cpu.hpp). -/
def instrOp (i : Nat) : Nat := i / 2 ^ 26 % 2 ^ 6

/-- `rs` field (bits 21–25). -/
def instrRs (i : Nat) : Nat := i / 2 ^ 21 % 2 ^ 5

/-- `rt` field (bits 16–20). -/
def instrRt (i : Nat) : Nat := i / 2 ^ 16 % 2 ^ 5

/-- `rd` field (bits 11–15). -/
def instrRd (i : Nat) : Nat := i / 2 ^ 11 % 2 ^ 5

/-- `sa` field (bits 6–10). -/
def instrSa (i : Nat) : Nat := i / 2 ^ 6 % 2 ^ 5

/-- `funct` field (bits 0–5). -/
def instrFunct (i : Nat) : Nat := i % 2 ^ 6

/-- `immediate` field (bits 0–15). -/
def instrImm (i : Nat) : Nat := i % 2 ^ 16

/-- `doBranch`'s shared target computation:
`target = getPC<false>() + ((u64)(i16)imm << 2)` in `u64` arithmetic.
`getPC<false>()` is `regFile.pc`, which at decode time (after
`advancePC`) holds the delay-slot address. -/
def branchTarget (s : CpuState) (instr : Nat) : Nat :=
  (s.pc + (sext16to64 (instrImm instr) * 4) % 2 ^ 64) % 2 ^ 64

/-- `doBranch<BranchOp::BGEZAL>`: condition `(i64)rsData >= 0`, link
register `Register::RA`, not likely. -/
def doBranchBGEZAL (s : CpuState) (instr : Nat) : Option CpuState :=
  cpuBranch s (branchTarget s instr)
    (decide (0 ≤ toI64 (s.regs (instrRs instr)))) REG_RA false

/-- `doBranch<BranchOp::BEQ>`: condition `rsData == rtData`, link register
`Register::R0`, not likely. -/
def doBranchBEQ (s : CpuState) (instr : Nat) : Option CpuState :=
  cpuBranch s (branchTarget s instr)
    (decide (s.regs (instrRs instr) = s.regs (instrRt instr))) 0 false

/-- `doALURegister<ALUOpReg::SLL>` (NOP when rd = 0):
`set(rd, (u32)(rtData << sa))`. -/
def doSLL (s : CpuState) (instr : Nat) : CpuState :=
  cpuSet32 s (instrRd instr) ((s.regs (instrRt instr) <<< instrSa instr) % 2 ^ 32)

/-- `doALURegister<ALUOpReg::DIV>`: signed 32-bit division.  Division by
zero writes ±1 into LO (+1 for a negative dividend) and the dividend into
HI; INT_MIN / −1 writes `1U << 31` into LO and 0 into HI; otherwise the
C-truncated quotient and remainder; every write-back goes through
`set<u32>` (sign-extension to 64 bits).  LO is written before HI. -/
def doDIV (s : CpuState) (instr : Nat) : CpuState :=
  let n : Int := toI32 (s.regs (instrRs instr))
  let d : Int := toI32 (s.regs (instrRt instr))
  if d = 0 then
    let s1 := if n < 0 then cpuSet32 s REG_LO 1 else cpuSet32 s REG_LO (u32ofInt (-1))
    cpuSet32 s1 REG_HI (u32ofInt n)
  else if n = -(2 ^ 31) ∧ d = -1 then
    cpuSet32 (cpuSet32 s REG_LO (2 ^ 31)) REG_HI 0
  else
    cpuSet32 (cpuSet32 s REG_LO (u32ofInt (Int.tdiv n d))) REG_HI
      (u32ofInt (Int.tmod n d))

/-- The decode-dispatch of `hw::cpu::doInstruction`, restricted to the
instruction forms the theorems below execute (`SLL` / `DIV` under
SPECIAL, `BGEZAL` under REGIMM, `BEQ`).  The remaining decode arms of the
source are not exercised by any claim and are not represented
(mapped to `none`). -/
def decodeExec (s : CpuState) (instr : Nat) : Option CpuState :=
  match instrOp instr with
  | 0x00 =>
    match instrFunct instr with
    | 0x00 => some (doSLL s instr)
    | 0x1A => some (doDIV s instr)
    | _ => none
  | 0x01 =>
    match instrRt instr with
    | 0x11 => doBranchBGEZAL s instr
    | _ => none
  | 0x04 => doBranchBEQ s instr
  | _ => none

/-- `hw::cpu::fetch` plus decode: check alignment (unaligned reads are
fatal), translate the PC, read the instruction word through the bus
(`bus` stands for `sys::memory::read<u32>` over physical addresses),
advance the PC, execute. -/
def cpuDoInstruction (bus : Nat → Nat) (s : CpuState) : Option CpuState :=
  if s.pc % 4 ≠ 0 then none
  else
    (translateAddress s.pc).bind fun paddr =>
      let instr := bus paddr % 2 ^ 32
      decodeExec { s with pc := s.npc, npc := (s.npc + 4) % 2 ^ 64 } instr

/-- One iteration of the loop of `hw::cpu::run` (cpu.cpp:1507–1515):
snapshot the current PC, shift the delay-slot queue, execute one
instruction.  Note that the loop body never touches the system-control
coprocessor's Count register. -/
def cpuStep (bus : Nat → Nat) (s : CpuState) : Option CpuState :=
  cpuDoInstruction bus { s with cpc := s.pc, delay0 := s.delay1, delay1 := false }

/-- `hw::cpu::run(cycles)`: `cycles` iterations of the loop, one
interpreted instruction (one tick) per iteration. -/
def cpuRun (bus : Nat → Nat) : Nat → CpuState → Option CpuState
  | 0, s => some s
  | n + 1, s => (cpuStep bus s).bind (cpuRun bus n)

/-- `n` applications of `cop0::incrementCount` — what charging the counter
for `n` CPU cycles would do. -/
def incrementCountN : Nat → CpuState → Option CpuState
  | 0, s => some s
  | n + 1, s => (incrementCount s).bind (incrementCountN n)

/-! ### Integer-cast round-trip lemmas -/

theorem toI32_range (x : Nat) : -(2 ^ 31) ≤ toI32 x ∧ toI32 x < 2 ^ 31 := by
  unfold toI32
  have := Nat.mod_lt x (show 0 < 2 ^ 32 by norm_num)
  split_ifs <;> omega

theorem toI64_sext32_u32ofInt {i : Int} (h1 : -(2 ^ 31) ≤ i) (h2 : i < 2 ^ 31) :
    toI64 (sext32to64 (u32ofInt i)) = i := by
  unfold toI64 sext32to64 u32ofInt
  have h3 : (0 : Int) ≤ i % 2 ^ 32 := Int.emod_nonneg _ (by norm_num)
  have h4 : i % 2 ^ 32 < 2 ^ 32 := Int.emod_lt_of_pos _ (by norm_num)
  split_ifs <;> omega

theorem tmod_natAbs_eq (a b : Int) : (Int.tmod a b).natAbs = a.natAbs % b.natAbs := by
  cases a <;> cases b <;> simp only [Int.tmod, Int.natAbs_neg] <;> rfl

theorem tmod_nonpos_of_nonpos {a : Int} (b : Int) (h : a ≤ 0) : Int.tmod a b ≤ 0 := by
  cases a with
  | ofNat m =>
    have hm : (m : Int) ≤ 0 := h
    have hm0 : m = 0 := by omega
    subst hm0
    simp
  | negSucc m =>
    cases b <;> (simp only [Int.tmod]; exact neg_nonpos.mpr (Int.ofNat_nonneg _))

/-! ## Claim C8 — DIV edge cases (doALURegister<ALUOpReg::DIV>) -/

/--
C8: for every pair of 32-bit operands of DIV: a zero divisor writes +1
into LO for a negative dividend and −1 otherwise, and the dividend into
HI (all sign-extended to 64 bits); INT_MIN / −1 writes sign-extended
INT_MIN into LO and 0 into HI; otherwise LO and HI receive the
sign-extended (C-truncated) quotient and remainder.
-/
theorem c8_div_spec (s : CpuState) (instr : Nat) :
    (toI32 (s.regs (instrRt instr)) = 0 →
      toI64 ((doDIV s instr).regs REG_LO) =
        (if toI32 (s.regs (instrRs instr)) < 0 then 1 else -1) ∧
      toI64 ((doDIV s instr).regs REG_HI) = toI32 (s.regs (instrRs instr))) ∧
    (toI32 (s.regs (instrRs instr)) = -(2 ^ 31) →
      toI32 (s.regs (instrRt instr)) = -1 →
      toI64 ((doDIV s instr).regs REG_LO) = -(2 ^ 31) ∧
      toI64 ((doDIV s instr).regs REG_HI) = 0) ∧
    (toI32 (s.regs (instrRt instr)) ≠ 0 →
      ¬(toI32 (s.regs (instrRs instr)) = -(2 ^ 31) ∧
        toI32 (s.regs (instrRt instr)) = -1) →
      toI64 ((doDIV s instr).regs REG_LO) =
        Int.tdiv (toI32 (s.regs (instrRs instr))) (toI32 (s.regs (instrRt instr))) ∧
      toI64 ((doDIV s instr).regs REG_HI) =
        Int.tmod (toI32 (s.regs (instrRs instr))) (toI32 (s.regs (instrRt instr)))) := by
  set n := toI32 (s.regs (instrRs instr)) with hn
  set d := toI32 (s.regs (instrRt instr)) with hd
  obtain ⟨hn1, hn2⟩ := toI32_range (s.regs (instrRs instr))
  obtain ⟨hd1, hd2⟩ := toI32_range (s.regs (instrRt instr))
  rw [← hn] at hn1 hn2
  rw [← hd] at hd1 hd2
  have hregs : ∀ (s1 : CpuState) (a b : Nat),
      ((cpuSet32 (cpuSet32 s1 REG_LO a) REG_HI b).regs REG_LO = sext32to64 a % 2 ^ 64) ∧
      ((cpuSet32 (cpuSet32 s1 REG_LO a) REG_HI b).regs REG_HI = sext32to64 b % 2 ^ 64) := by
    intro s1 a b
    simp [cpuSet32, cpuSet64, updFn, REG_LO, REG_HI]
  have hsext_lt : ∀ x : Nat, sext32to64 x < 2 ^ 64 := by
    intro x
    unfold sext32to64
    have := Nat.mod_lt x (show 0 < 2 ^ 32 by norm_num)
    split_ifs <;> omega
  refine ⟨fun h0 => ?_, fun hmin hneg1 => ?_, fun h0 hexc => ?_⟩
  · rw [doDIV]
    simp only [← hn, ← hd, if_pos h0]
    by_cases hlt : n < 0
    · rw [if_pos hlt, if_pos hlt]
      obtain ⟨hlo, hhi⟩ := hregs s 1 (u32ofInt n)
      constructor
      · rw [hlo, Nat.mod_eq_of_lt (hsext_lt _)]
        decide
      · rw [hhi, Nat.mod_eq_of_lt (hsext_lt _)]
        exact toI64_sext32_u32ofInt hn1 hn2
    · rw [if_neg hlt, if_neg hlt]
      obtain ⟨hlo, hhi⟩ := hregs s (u32ofInt (-1)) (u32ofInt n)
      constructor
      · rw [hlo, Nat.mod_eq_of_lt (hsext_lt _)]
        decide
      · rw [hhi, Nat.mod_eq_of_lt (hsext_lt _)]
        exact toI64_sext32_u32ofInt hn1 hn2
  · rw [doDIV]
    simp only [← hn, ← hd]
    rw [if_neg (by rw [hneg1]; norm_num), if_pos ⟨hmin, hneg1⟩]
    obtain ⟨hlo, hhi⟩ := hregs s (2 ^ 31) 0
    constructor
    · rw [hlo, Nat.mod_eq_of_lt (hsext_lt _)]
      decide
    · rw [hhi, Nat.mod_eq_of_lt (hsext_lt _)]
      decide
  · rw [doDIV]
    simp only [← hn, ← hd]
    rw [if_neg h0, if_neg hexc]
    obtain ⟨hlo, hhi⟩ := hregs s (u32ofInt (Int.tdiv n d)) (u32ofInt (Int.tmod n d))
    have htdiv_abs : (Int.tdiv n d).natAbs = n.natAbs / d.natAbs := Int.natAbs_tdiv n d
    have htdiv_range : -(2 ^ 31) ≤ Int.tdiv n d ∧ Int.tdiv n d < 2 ^ 31 := by
      by_cases hd_one : d = 1
      · rw [hd_one, Int.tdiv_one]
        omega
      · by_cases hd_mone : d = -1
        · rw [hd_mone, show (-1 : Int) = -(1 : Int) by norm_num, Int.tdiv_neg,
            Int.tdiv_one]
          have : n ≠ -(2 ^ 31) := fun hc => hexc ⟨hc, hd_mone⟩
          omega
        · have hd_abs : 2 ≤ d.natAbs := by omega
          have h2 : n.natAbs / d.natAbs ≤ n.natAbs / 2 :=
            Nat.div_le_div_left hd_abs (by norm_num)
          have h3 : n.natAbs ≤ 2 ^ 31 := by omega
          have h4 : n.natAbs / 2 ≤ 2 ^ 30 := by omega
          omega
    have htmod_abs : (Int.tmod n d).natAbs = n.natAbs % d.natAbs := tmod_natAbs_eq n d
    have htmod_le : n.natAbs % d.natAbs ≤ n.natAbs := Nat.mod_le _ _
    have htmod_range : -(2 ^ 31) ≤ Int.tmod n d ∧ Int.tmod n d < 2 ^ 31 := by
      rcases le_or_lt 0 n with hpos | hneg
      · have hmn : 0 ≤ Int.tmod n d := Int.tmod_nonneg d hpos
        omega
      · have hmn : Int.tmod n d ≤ 0 := tmod_nonpos_of_nonpos d (le_of_lt hneg)
        omega
    constructor
    · rw [hlo, Nat.mod_eq_of_lt (hsext_lt _)]
      exact toI64_sext32_u32ofInt htdiv_range.1 htdiv_range.2
    · rw [hhi, Nat.mod_eq_of_lt (hsext_lt _)]
      exact toI64_sext32_u32ofInt htmod_range.1 htmod_range.2

/-- Concrete register file for the C8 witness, general case: `r4 = -7`,
`r5 = 3` (as u32 carriers). -/
def c8sW1 : CpuState :=
  { cpuReset with regs := updFn (updFn (fun _ => 0) 4 0xFFFFFFF9) 5 3 }

/-- Concrete register file for the C8 witness, divide-by-zero case:
`r4 = -7`, `r5 = 0`. -/
def c8sW2 : CpuState :=
  { cpuReset with regs := updFn (updFn (fun _ => 0) 4 0xFFFFFFF9) 5 0 }

/-- Concrete register file for the C8 witness, INT_MIN / −1 case. -/
def c8sW3 : CpuState :=
  { cpuReset with regs := updFn (updFn (fun _ => 0) 4 0x80000000) 5 0xFFFFFFFF }

/-- A DIV encoding with `rs = 4`, `rt = 5`. -/
def c8iW : Nat := 4 * 2 ^ 21 + 5 * 2 ^ 16 + 0x1A

/-- Witness for C8 at the three concrete operand pairs. -/
theorem c8_div_spec_witness :
    (toI32 (c8sW2.regs (instrRt c8iW)) = 0 ∧
      toI64 ((doDIV c8sW2 c8iW).regs REG_LO) =
        (if toI32 (c8sW2.regs (instrRs c8iW)) < 0 then 1 else -1) ∧
      toI64 ((doDIV c8sW2 c8iW).regs REG_HI) = toI32 (c8sW2.regs (instrRs c8iW))) ∧
    (toI64 ((doDIV c8sW3 c8iW).regs REG_LO) = -(2 ^ 31) ∧
      toI64 ((doDIV c8sW3 c8iW).regs REG_HI) = 0) ∧
    (toI64 ((doDIV c8sW1 c8iW).regs REG_LO) =
        Int.tdiv (toI32 (c8sW1.regs (instrRs c8iW))) (toI32 (c8sW1.regs (instrRt c8iW))) ∧
      toI64 ((doDIV c8sW1 c8iW).regs REG_HI) =
        Int.tmod (toI32 (c8sW1.regs (instrRs c8iW))) (toI32 (c8sW1.regs (instrRt c8iW)))) :=
  ⟨⟨by decide, (c8_div_spec c8sW2 c8iW).1 (by decide)⟩,
   (c8_div_spec c8sW3 c8iW).2.1 (by decide) (by decide),
   (c8_div_spec c8sW1 c8iW).2.2 (by decide) (by decide)⟩

/-! ## Claim C9 — Status.BEV after reset blocks exception delivery -/

/--
C9: after reset, the system-control coprocessor's Status
boot-exception-vectors bit is 1, and `raiseException` terminates fatally
(never reaching the general vector) whenever that bit is set; once the
bit is clear (guest code clears it by writing Status), `raiseException`
delivers to the general vector 0xFFFF'FFFF'8000'0180.
-/
theorem c9_bev_blocks_exceptions :
    statusBEV cop0Reset.status = 1 ∧
    (∀ (code : Nat) (s : CpuState), statusBEV s.cop0.status ≠ 0 →
      raiseException code s = none) ∧
    (∀ (code : Nat) (s : CpuState), statusBEV s.cop0.status = 0 →
      (raiseException code s).map (fun t => t.pc) = some 0xFFFFFFFF80000180) := by
  refine ⟨by decide, ?_, ?_⟩
  · intro code s h
    simp only [raiseException]
    exact if_pos h
  · intro code s h
    simp only [raiseException]
    rw [if_neg (by simp [h])]
    rfl

/-- Witness for C9: reset state (BEV = 1) is fatal; the same state with
Status cleared delivers to the general vector. -/
theorem c9_bev_blocks_exceptions_witness :
    raiseException 0 cpuReset = none ∧
    (raiseException 0 { cpuReset with cop0 := { cop0Reset with status := 0 } }).map
      (fun t => t.pc) = some 0xFFFFFFFF80000180 :=
  ⟨c9_bev_blocks_exceptions.2.1 0 cpuReset (by decide),
   c9_bev_blocks_exceptions.2.2 0 _ (by decide)⟩

/-! ## Claim C10 — link register written before the branch condition -/

/--
C10: the branch helper stores the address of the instruction after the
delay slot (`npc`) into the link register before evaluating the
condition, so BGEZAL updates RA even when not taken; non-link branches
(here BEQ) name register 0 as the link register, which stays 0.  (A
branch in a delay slot is fatal, hence the `delay0 = false` hypothesis.)
-/
theorem c10_branch_link (s : CpuState) (instr : Nat) (h : s.delay0 = false) :
    ((doBranchBGEZAL s instr).map fun t => t.regs REG_RA) = some (s.npc % 2 ^ 64) ∧
    ((doBranchBEQ s instr).map fun t => t.regs 0) = some 0 := by
  have hd : ¬(s.delay0 = true) := by simp [h]
  constructor
  · simp only [doBranchBGEZAL, cpuBranch]
    rw [if_neg hd]
    split_ifs <;> simp [cpuSet64, cpuSetBranchPC, cpuSetPC, updFn, REG_RA]
  · simp only [doBranchBEQ, cpuBranch]
    rw [if_neg hd]
    split_ifs <;> simp [cpuSet64, cpuSetBranchPC, cpuSetPC, updFn]

/-- Witness for C10 at the reset state and the all-zero instruction word. -/
theorem c10_branch_link_witness :
    ((doBranchBGEZAL cpuReset 0).map fun t => t.regs REG_RA) =
      some (cpuReset.npc % 2 ^ 64) ∧
    ((doBranchBEQ cpuReset 0).map fun t => t.regs 0) = some 0 :=
  c10_branch_link cpuReset 0 (by decide)

/-! ## Claim C1 — the Count/Compare counter during hw::cpu::run -/

/-- All-NOP bus: every fetched instruction word is 0 (`sll r0, r0, 0`). -/
def nopBus : Nat → Nat := fun _ => 0

/-- The spec's counter-interrupt scenario: from reset, write
`Compare = 0x10` (COP0 register 11), then a Status word enabling
interrupt-mask bit 7 (IM7 = bit 15; BEV kept as at reset, IE off):
`Status = 0x408000`. -/
def c1Scenario : Option CpuState :=
  (cop0Set32 11 0x10 cpuReset).bind (cop0Set32 12 0x408000)

/--
C1: `hw::cpu::run` charges one interpreted instruction per cycle but
never invokes `cop0::incrementCount` — no code path does — so after 64
CPU cycles from the reset/Compare=0x10/IM7 scenario the Count register is
still 0 and Cause.IP bit 7 is still clear, while 64 applications of
`cop0::incrementCount` itself (the behaviour the claim describes) would
have advanced Count to 64 and latched IP bit 7 when Count>>1 hit Compare.
-/
theorem c1_run_never_advances_count :
    ((c1Scenario.bind (cpuRun nopBus 64)).map
      fun s => (s.cop0.count, causeIP s.cop0.cause &&& 0x80)) = some (0, 0) ∧
    ((c1Scenario.bind (incrementCountN 64)).map
      fun s => (s.cop0.count, causeIP s.cop0.cause &&& 0x80)) = some (64, 0x80) := by
  constructor <;> decide

/-! ## hw/rdp/rdp.cpp — processCommandList -/

/-- The single-word command codes `processCommandList` recognizes
(`namespace Command`, rdp.cpp): the four Syncs, Set Scissor, Set Other
Modes, Load TLUT, Load Tile, Set Tile, Set Combine Mode, Set Texture
Image, Set Color Image.  Texture Rectangle (0x24) is handled separately
because it consumes a second word. -/
def isRdpSingleWordCommand (c : Nat) : Bool :=
  (c == 0x26) || (c == 0x27) || (c == 0x28) || (c == 0x29) || (c == 0x2D) ||
    (c == 0x2F) || (c == 0x30) || (c == 0x34) || (c == 0x35) || (c == 0x3C) ||
    (c == 0x3D) || (c == 0x3F)

/-- The `for (; addr < endAddr; addr += 8)` loop of
`hw::rdp::processCommandList`: read the 64-bit word at `addr`, dispatch
on bits 56–61; Texture Rectangle does `addr += 8` and reads a second
word, so it advances 16 in total; an unrecognized command logs
`PLOG_FATAL` and exits (`none`).  `mem` stands for
`sys::memory::read<u64>`; the command handlers' side effects do not
influence the returned address and are not modelled.  Fuel (one unit per
iteration; `endAddr - addr` at entry suffices, since each iteration
advances at least 8) makes the recursion structural. -/
def pclLoop (mem : Nat → Nat) (endAddr : Nat) : Nat → Nat → Option Nat
  | 0, addr => if addr < endAddr then none else some addr
  | fuel + 1, addr =>
    if addr < endAddr then
      let data := mem addr
      let command := (data >>> 56) &&& 0x3F
      if command = 0x24 then pclLoop mem endAddr fuel (addr + 16)
      else if isRdpSingleWordCommand command then pclLoop mem endAddr fuel (addr + 8)
      else none
    else some addr

/-- `hw::rdp::processCommandList(startAddr, endAddr)` (rdp.cpp:82–148):
an empty list (`startAddr >= endAddr`) returns `startAddr`; otherwise the
loop consumes 8-byte words until the running address reaches `endAddr`
and returns it. -/
def processCommandList (mem : Nat → Nat) (startAddr endAddr : Nat) : Option Nat :=
  if startAddr ≥ endAddr then some startAddr
  else pclLoop mem endAddr (endAddr - startAddr) startAddr

theorem pclLoop_spec (mem : Nat → Nat) (e : Nat) :
    ∀ fuel a r, e ≤ a + 8 * fuel → pclLoop mem e fuel a = some r →
      e ≤ r ∧ (a < e → r < e + 16) ∧ (e ≤ a → r = a) := by
  intro fuel
  induction fuel with
  | zero =>
    intro a r hk h
    rw [pclLoop, if_neg (by omega)] at h
    simp only [Option.some.injEq] at h
    subst h
    exact ⟨by omega, fun hc => absurd hc (by omega), fun _ => rfl⟩
  | succ k ih =>
    intro a r hk h
    by_cases hlt : a < e
    · simp only [pclLoop] at h
      rw [if_pos hlt] at h
      split_ifs at h with h24 hcmd
      · obtain ⟨h1, h2, h3⟩ := ih (a + 16) r (by omega) h
        refine ⟨h1, fun _ => ?_, fun hge => absurd hlt (by omega)⟩
        rcases Nat.lt_or_ge (a + 16) e with hc | hc
        · exact h2 hc
        · rw [h3 hc]
          omega
      · obtain ⟨h1, h2, h3⟩ := ih (a + 8) r (by omega) h
        refine ⟨h1, fun _ => ?_, fun hge => absurd hlt (by omega)⟩
        rcases Nat.lt_or_ge (a + 8) e with hc | hc
        · exact h2 hc
        · rw [h3 hc]
          omega
    · rw [pclLoop, if_neg hlt] at h
      simp only [Option.some.injEq] at h
      subst h
      exact ⟨by omega, fun hc => absurd hc hlt, fun _ => rfl⟩

/-- C2 counterexample: on an "empty" list with `s > e` — which the claim
counts as consuming all commands cleanly — the function returns `s`,
not `e`: `processCommandList m 8 0 = some 8 ≠ some 0`. -/
theorem c2_processCommandList_counterexample :
    processCommandList (fun _ => 0x2700000000000000) 8 0 = some 8 ∧
    (8 : Nat) ≠ 0 :=
  ⟨by rw [processCommandList, if_pos (by omega)], by decide⟩

/--
C2 (amended): `processCommandList(s, e)` returns `s` when `s ≥ e`;
otherwise it walks 8-byte words from `s` (16 for a Texture Rectangle) and,
when every traversed command is recognized, returns the first walk
address that reaches or passes `e` — `e` itself for a list ending in a
one-word command, `e + 8` when a Texture Rectangle header lies at
`e − 8` (its parameter word is consumed from beyond the end) — while an
unrecognized command byte terminates fatally instead of returning its
address.
-/
theorem c2_processCommandList_amended (mem : Nat → Nat) (s e r : Nat) :
    (e ≤ s → processCommandList mem s e = some s) ∧
    (s < e → processCommandList mem s e = some r → e ≤ r ∧ r < e + 16) ∧
    processCommandList (fun _ => 0x2700000000000000) 0 16 = some 16 ∧
    processCommandList
      (fun a => if a = 8 then 0x2400000000000000 else 0x2700000000000000)
      0 16 = some 24 ∧
    processCommandList (fun _ => 0) 0 8 = none := by
  refine ⟨fun h => ?_, fun hlt h => ?_, ?_, ?_, ?_⟩
  · rw [processCommandList, if_pos h]
  · rw [processCommandList, if_neg (by omega)] at h
    obtain ⟨h1, h2, _⟩ := pclLoop_spec mem e (e - s) s r (by omega) h
    exact ⟨h1, h2 hlt⟩
  · decide
  · decide
  · decide

/-- Witness for C2 (amended) at concrete inputs on both sides. -/
theorem c2_processCommandList_amended_witness :
    processCommandList (fun _ => 0) 8 8 = some 8 ∧
    (processCommandList (fun _ => 0x2700000000000000) 0 16 = some 16 →
      16 ≤ 16 ∧ (16 : Nat) < 16 + 16) :=
  ⟨(c2_processCommandList_amended (fun _ => 0) 8 8 0).1 (le_refl _),
   fun h => (c2_processCommandList_amended (fun _ => 0x2700000000000000) 0 16 16).2.1
     (by omega) h⟩

/-! ## hw/rsp/rsp.cpp — the vector unit's VMULF -/

/-- `hw::rsp::clampSigned` (rsp.cpp:186–196): saturate an
accumulator-lane value (viewed as i64) to the signed 16-bit range,
otherwise truncate to u16. -/
def clampSigned (data : Int) : Nat :=
  if data < -0x8000 then 0x8000
  else if data > 0x7FFF then 0x7FFF
  else (data % 2 ^ 16).toNat

/-- `getLaneIndex`: lane `idx` lives at physical position `7 - idx`. -/
def getLaneIndex (idx : Nat) : Nat := 7 - idx

/-- The C cast `(i16)x` of a u16 carrier
(`VectorRegister::getSignedLane`). -/
def toI16 (x : Nat) : Int :=
  if x % 2 ^ 16 < 2 ^ 15 then (x % 2 ^ 16 : Int) else (x % 2 ^ 16 : Int) - 2 ^ 16

/-- `((i64)x << 16) >> 16`: sign-extension from the low 48 bits
(`Accumulator::getSignedLane`'s shift pair). -/
def sext48toInt (x : Nat) : Int :=
  if x % 2 ^ 48 < 2 ^ 47 then (x % 2 ^ 48 : Int) else (x % 2 ^ 48 : Int) - 2 ^ 48

/-- `Accumulator::getSignedLane`. -/
def accGetSignedLane (acc : Nat → Nat) (idx : Nat) : Int :=
  sext48toInt (acc (getLaneIndex idx))

/-- `Accumulator::setSignedLane`: stores the i64 value as a raw u64
(unlike `setLane`, there is no 48-bit mask here). -/
def accSetSignedLane (acc : Nat → Nat) (idx : Nat) (data : Int) : Nat → Nat :=
  updFn acc (getLaneIndex idx) (u64ofInt data)

/-- `BROADCAST_MASKS` (`Registers::broadcast`, rsp.cpp:292–297). -/
def BROADCAST_MASKS (m : Nat) : Nat :=
  match m with
  | 0 => 0x76543210
  | 1 => 0x76543210
  | 2 => 0x66442200
  | 3 => 0x77553311
  | 4 => 0x44440000
  | 5 => 0x55551111
  | 6 => 0x66662222
  | 7 => 0x77773333
  | 8 => 0x00000000
  | 9 => 0x11111111
  | 10 => 0x22222222
  | 11 => 0x33333333
  | 12 => 0x44444444
  | 13 => 0x55555555
  | 14 => 0x66666666
  | _ => 0x77777777

/-- RSP vector-unit state: the 32 vector registers (register index →
physical lane index → u16 lane) and the 8 accumulator lanes (physical
lane index → raw u64). -/
structure RspVectorState where
  vuRegs : Nat → Nat → Nat
  accLanes : Nat → Nat

/-- `Registers::broadcast(idx, broadcastMod)`: the value vector whose
physical lane `i` is `vuRegs[idx].lanes[(mask >> 4i) & 7]`; the source
register is unchanged. -/
def broadcast (vuRegs : Nat → Nat → Nat) (idx bmod : Nat) : Nat → Nat :=
  fun i => vuRegs idx ((BROADCAST_MASKS bmod >>> (4 * i)) &&& 7)

/-- `Registers::setLane(idx, element, data)` →
`VectorRegister::setLane`: write lane `element` (physical `7 − element`)
of register `idx`. -/
def vuSetLane (vuRegs : Nat → Nat → Nat) (idx lane data : Nat) : Nat → Nat → Nat :=
  fun r => if r = idx then updFn (vuRegs r) (getLaneIndex lane) (data % 2 ^ 16)
    else vuRegs r

/-- The i32 wrap of the product expression (C `int` arithmetic). -/
def wrapI32 (x : Int) : Int :=
  if x % 2 ^ 32 < 2 ^ 31 then x % 2 ^ 32 else x % 2 ^ 32 - 2 ^ 32

/-- Arithmetic right shift by 16 of an i64 (the C `>> 16`): floor
division by 2^16. -/
def sar16 (x : Int) : Int := Int.fdiv x (2 ^ 16)

/-- `hw::rsp::VMULF` (rsp.cpp:991–1016): take the broadcast copy of vt
before the loop; then for each lane
`product = (i32)vs[i] * (i32)vt'[i] * 2 + 0x8000` (i32 arithmetic),
store it into the accumulator lane (`setSignedLane`), and write
`clampSigned(acc.getSignedLane(i) >> 16)` back into `vd`'s lane. -/
def VMULF (s : RspVectorState) (vd vs vt bmod : Nat) : RspVectorState :=
  let vtData := broadcast s.vuRegs vt bmod
  (List.range 8).foldl
    (fun st i =>
      let product := wrapI32 (toI16 (st.vuRegs vs (getLaneIndex i)) *
        toI16 (vtData (getLaneIndex i)) * 2 + 0x8000)
      let st1 : RspVectorState :=
        { st with accLanes := accSetSignedLane st.accLanes i product }
      let writeBack := clampSigned (sar16 (accGetSignedLane st1.accLanes i))
      { st1 with vuRegs := vuSetLane st1.vuRegs vd i writeBack })
    s

/-- The spec scenario for C4: `v1` lanes 0x0001..0x0008 (instruction lane
`i` at physical index `7 − i`), `v2` lanes all 0x0003, accumulator and
all other registers zero. -/
def c4State : RspVectorState :=
  { vuRegs := fun r p =>
      if r = 1 then (if p < 8 then 8 - p else 0)
      else if r = 2 then 3 else 0
    accLanes := fun _ => 0 }

/-- `VMULF v3, v1, v2[0]` on the scenario state. -/
def c4Result : RspVectorState := VMULF c4State 3 1 2 0

/-- C4 counterexample: in the spec scenario the accumulator lane of the
first element holds `2*1*3 + 0x8000 = 0x8006`, not the claimed
`0x0001_8006`. -/
theorem c4_vmulf_counterexample :
    c4Result.accLanes (getLaneIndex 0) = 0x8006 ∧
    c4Result.accLanes (getLaneIndex 0) ≠ 0x18006 := by
  constructor <;> decide

theorem updFn_same (f : Nat → Nat) (i v : Nat) : updFn f i v i = v := by
  simp [updFn]

theorem updFn_ne (f : Nat → Nat) {i j : Nat} (v : Nat) (h : j ≠ i) :
    updFn f i v j = f j := by
  simp [updFn, h]

theorem wrapI32_eq {x : Int} (h1 : -(2 ^ 31) ≤ x) (h2 : x < 2 ^ 31) :
    wrapI32 x = x := by
  unfold wrapI32
  have h3 := Int.emod_nonneg x (show (2 : Int) ^ 32 ≠ 0 by norm_num)
  have h4 := Int.emod_lt_of_pos x (show (0 : Int) < 2 ^ 32 by norm_num)
  split_ifs <;> omega

theorem sext48_u64ofInt {p : Int} (h1 : -(2 ^ 47) ≤ p) (h2 : p < 2 ^ 47) :
    sext48toInt (u64ofInt p) = p := by
  unfold sext48toInt u64ofInt
  have h3 := Int.emod_nonneg p (show (2 : Int) ^ 64 ≠ 0 by norm_num)
  have h4 := Int.emod_lt_of_pos p (show (0 : Int) < 2 ^ 64 by norm_num)
  split_ifs <;> omega

theorem clampSigned_lt (d : Int) : clampSigned d < 2 ^ 16 := by
  unfold clampSigned
  have h3 := Int.emod_nonneg d (show (2 : Int) ^ 16 ≠ 0 by norm_num)
  have h4 := Int.emod_lt_of_pos d (show (0 : Int) < 2 ^ 16 by norm_num)
  split_ifs <;> omega

/--
C4 (amended): VMULF sets, for every lane i whose doubled product does not
overflow the 32-bit intermediate, acc_lane(i) = srcA(i)·srcB(i)·2 +
0x8000 and writes back signed-saturate(acc_lane(i) >> 16); in the
scenario (v1 lanes 0x0001..0x0008, v2 lanes 0x0003, `VMULF v3, v1,
v2[0]`) every v3 lane is 0 and the accumulator lanes hold 0x8006, 0x800C,
…, 0x8030 (not 0x0001_8006, 0x0002_0006, …).
-/
theorem c4_vmulf_amended :
    (∀ (s : RspVectorState) (vd vs vt bmod i : Nat), i < 8 →
      -(2 ^ 31) ≤ toI16 (s.vuRegs vs (getLaneIndex i)) *
          toI16 (broadcast s.vuRegs vt bmod (getLaneIndex i)) * 2 + 0x8000 →
      toI16 (s.vuRegs vs (getLaneIndex i)) *
          toI16 (broadcast s.vuRegs vt bmod (getLaneIndex i)) * 2 + 0x8000 < 2 ^ 31 →
      accGetSignedLane (VMULF s vd vs vt bmod).accLanes i =
        toI16 (s.vuRegs vs (getLaneIndex i)) *
          toI16 (broadcast s.vuRegs vt bmod (getLaneIndex i)) * 2 + 0x8000 ∧
      (VMULF s vd vs vt bmod).vuRegs vd (getLaneIndex i) =
        clampSigned (sar16 (toI16 (s.vuRegs vs (getLaneIndex i)) *
          toI16 (broadcast s.vuRegs vt bmod (getLaneIndex i)) * 2 + 0x8000))) ∧
    (∀ i, i < 8 → c4Result.vuRegs 3 (getLaneIndex i) = 0) ∧
    (∀ i, i < 8 → c4Result.accLanes (getLaneIndex i) = 0x8000 + 6 * (i + 1)) := by
  refine ⟨?_, by decide, by decide⟩
  intro s vd vs vt bmod i hi h1 h2
  have hrange : List.range 8 = [0, 1, 2, 3, 4, 5, 6, 7] := rfl
  by_cases hv : vs = vd
  · subst hv
    interval_cases i <;>
      (simp +decide only [VMULF, hrange, List.foldl_cons, List.foldl_nil,
        accGetSignedLane, accSetSignedLane, vuSetLane, updFn_same,
        updFn_ne, eq_self_iff_true, if_true]
       rw [wrapI32_eq h1 h2]
       constructor
       · rw [sext48_u64ofInt (by omega) (by omega)]
       · rw [sext48_u64ofInt (by omega) (by omega),
           Nat.mod_eq_of_lt (clampSigned_lt _)])
  · interval_cases i <;>
      (simp +decide only [VMULF, hrange, List.foldl_cons, List.foldl_nil,
        accGetSignedLane, accSetSignedLane, vuSetLane, updFn_same,
        updFn_ne, hv, eq_self_iff_true, if_true, if_false]
       rw [wrapI32_eq h1 h2]
       constructor
       · rw [sext48_u64ofInt (by omega) (by omega)]
       · rw [sext48_u64ofInt (by omega) (by omega),
           Nat.mod_eq_of_lt (clampSigned_lt _)])

theorem c4_vmulf_amended_witness :
    accGetSignedLane (VMULF c4State 3 1 2 0).accLanes 0 =
      toI16 (c4State.vuRegs 1 (getLaneIndex 0)) *
        toI16 (broadcast c4State.vuRegs 2 0 (getLaneIndex 0)) * 2 + 0x8000 ∧
    (VMULF c4State 3 1 2 0).vuRegs 3 (getLaneIndex 0) =
      clampSigned (sar16 (toI16 (c4State.vuRegs 1 (getLaneIndex 0)) *
        toI16 (broadcast c4State.vuRegs 2 0 (getLaneIndex 0)) * 2 + 0x8000)) :=
  (c4_vmulf_amended.1) c4State 3 1 2 0 0 (by decide) (by decide) (by decide)

/-! ## C5: RDP rasterizer fill rectangle -/

/-- `Image` (rasterizer context), the fields used by the fill path. -/
structure RdpImage where
  dramaddr : Nat
  width : Nat
  size : Nat
  format : Nat

/-- The slice of `Context` used by `fillRectangle` / `setFillColor` /
`setColorImage`. -/
structure RasterizerContext where
  colorImage : RdpImage
  fillColor : Nat

/-- `hw::rdp::rasterizer::setFillColor` (rasterizer.cpp:540–544): stores the
u32 fill colour. -/
def setFillColor (ctx : RasterizerContext) (fillColor : Nat) : RasterizerContext :=
  { ctx with fillColor := fillColor % 2 ^ 32 }

/-- `hw::rdp::rasterizer::setColorImage` (rasterizer.cpp:526–535): stores
`width + 1`. -/
def setColorImage (ctx : RasterizerContext) (dramaddr width size format : Nat) :
    RasterizerContext :=
  { ctx with colorImage :=
      { dramaddr := dramaddr % 2 ^ 64
        width := (width % 2 ^ 64 + 1) % 2 ^ 64
        size := size % 2 ^ 64
        format := format % 2 ^ 64 } }

/-- `hw::rdp::rasterizer::fillRectangle` (rasterizer.cpp:360–370): for
`y = y0>>2` while `y < y1>>2`, `x = x0>>2` while `x < x1>>2`, bus-write the
u16 truncation of the fill colour at `dramaddr + 2*(width*y + x)`
(`romPages` carries the ambient page-table configuration of
`sys::memory::write<u16>`). -/
def fillRectangle (romPages : Nat) (ctx : RasterizerContext) (m : Ram)
    (x0 y0 x1 y1 : Nat) : Option Ram :=
  let fillColor := ctx.fillColor % 2 ^ 16
  (List.range' (y0 >>> 2) ((y1 >>> 2) - (y0 >>> 2))).foldlM
    (fun my y =>
      (List.range' (x0 >>> 2) ((x1 >>> 2) - (x0 >>> 2))).foldlM
        (fun mx x =>
          memWrite16 romPages mx
            (ctx.colorImage.dramaddr + 2 * (ctx.colorImage.width * y + x))
            fillColor)
        my)
    m

/-- The C5 scenario context: colour image at DRAM address 0, width 320
(programmed as 319), 16 BPP RGBA, fill colour 0x1234_1234. -/
def c5Ctx : RasterizerContext :=
  setFillColor (setColorImage ⟨⟨0, 0, 0, 0⟩, 0⟩ 0 319 2 0) 0x12341234

/--
C5 counterexample: in the spec's scenario the byte at RAM offset 0 after
the fill is 0x12 (and offset 1 is 0x34) — the big-endian bus write stores
the pattern `12 34 12 34 …`, not `34 12 34 12 …` as claimed.
-/
theorem c5_fill_counterexample :
    ((fillRectangle 0 c5Ctx (fun _ => 0) 0 0 40 4).map (fun m2 => (m2 0, m2 1))
      = some (0x12, 0x34)) ∧ (0x12 : Nat) ≠ 0x34 := by
  constructor
  · decide
  · decide

/--
C5 (amended): with the colour image at DRAM address 0, width 320 and fill
colour 0x1234_1234, Fill Rectangle (x0=0, y0=0, x1=40, y1=4) writes
exactly 10 pixels in 1 row: for every initial RAM, after the fill the
byte pattern at offsets 0–19 is `12 34` repeating and every byte at
offset ≥ 20 is unchanged.
-/
theorem c5_fill_amended (romPages : Nat) (m : Ram) :
    ∃ m2, fillRectangle romPages c5Ctx m 0 0 40 4 = some m2 ∧
      (∀ k, k < 10 → m2 (2 * k) = 0x12 ∧ m2 (2 * k + 1) = 0x34) ∧
      (∀ k, 20 ≤ k → m2 k = m k) := by
  have hres : fillRectangle romPages c5Ctx m 0 0 40 4 =
      some (storeLE (storeLE (storeLE (storeLE (storeLE (storeLE (storeLE
        (storeLE (storeLE (storeLE m 0 2 0x3412) 2 2 0x3412) 4 2 0x3412)
        6 2 0x3412) 8 2 0x3412) 10 2 0x3412) 12 2 0x3412) 14 2 0x3412)
        16 2 0x3412) 18 2 0x3412) := rfl
  refine ⟨_, hres, ?_, ?_⟩
  · intro k hk
    interval_cases k <;> exact ⟨rfl, rfl⟩
  · intro k hk
    rw [storeLE_apply_ge (by omega), storeLE_apply_ge (by omega),
      storeLE_apply_ge (by omega), storeLE_apply_ge (by omega),
      storeLE_apply_ge (by omega), storeLE_apply_ge (by omega),
      storeLE_apply_ge (by omega), storeLE_apply_ge (by omega),
      storeLE_apply_ge (by omega), storeLE_apply_ge (by omega)]

theorem c5_fill_amended_witness :
    ∃ m2, fillRectangle 0 c5Ctx (fun _ => 0) 0 0 40 4 = some m2 ∧
      (∀ k, k < 10 → m2 (2 * k) = 0x12 ∧ m2 (2 * k + 1) = 0x34) ∧
      (∀ k, 20 ≤ k → m2 k = (fun _ => 0 : Ram) k) :=
  c5_fill_amended 0 (fun _ => 0)
